import Mathlib

/-
Shallow embedding of src/sofabaton-server.py (class SofaBatonServer).
Bytes are modelled as Nat (Python bytes elements are 0..255); fallible
Python operations (exceptions such as ValueError and OverflowError) are
modelled with Option.
-/

/-- Value of one hexadecimal digit, as accepted by Python bytes.fromhex:
codepoints 48-57 are the digits 0-9, 97-102 the letters a-f, 65-70 the
letters A-F; none for any other character. -/
def hexVal (c : Char) : Option Nat :=
  if 48 ≤ c.toNat ∧ c.toNat ≤ 57 then some (c.toNat - 48)
  else if 97 ≤ c.toNat ∧ c.toNat ≤ 102 then some (c.toNat - 97 + 10)
  else if 65 ≤ c.toNat ∧ c.toNat ≤ 70 then some (c.toNat - 65 + 10)
  else none

/-- bytes.fromhex over a character list: a space between byte pairs is
skipped, every pair of adjacent hex digits becomes one byte; a stray
single digit or a non-hex character raises ValueError (none). -/
def fromhexChars : List Char → Option (List Nat)
  | [] => some []
  | c :: rest =>
    if c = ' ' then fromhexChars rest
    else
      match rest with
      | [] => none
      | c2 :: rest2 =>
        match hexVal c, hexVal c2, fromhexChars rest2 with
        | some h, some l, some tail => some ((16 * h + l) :: tail)
        | _, _, _ => none

/-- Python bytes.fromhex on a string (src line 76: bytes.fromhex(self.hub_id)). -/
def bytesFromHex (s : String) : Option (List Nat) :=
  fromhexChars s.data

/-- Python int() restricted to plain decimal digit strings (the form the
dotted-quad octets take); none models ValueError. -/
def parseNatChars : List Char → Option Nat
  | [] => none
  | cs => cs.foldl
      (fun acc c =>
        match acc with
        | none => none
        | some a => if c.isDigit then some (a * 10 + (c.toNat - 48)) else none)
      (some 0)

/-- local_ip.split with separator dot (src line 79). -/
def splitDot : List Char → List (List Char)
  | [] => [[]]
  | '.' :: rest => [] :: splitDot rest
  | c :: rest =>
    match splitDot rest with
    | [] => [[c]]
    | g :: gs => (c :: g) :: gs

/-- ip_parts = [int(part) for part in local_ip.split with dot] (src line 79). -/
def ip_parts (s : String) : Option (List Nat) :=
  (splitDot s.data).mapM parseNatChars

/-- get_check_code (src lines 36-40): sum of all bytes masked to 8 bits,
returning only the low byte of the sum. -/
def get_check_code (data : List Nat) : Nat :=
  ((data.map (fun b => b % 256)).sum) % 256

/-- calculate_checksum (src lines 42-49): unbounded sum total, then
total.to_bytes(4, big)[-1]; to_bytes raises OverflowError when the total
does not fit in 4 bytes (modelled as none), else the last big-endian byte
is the low byte of the total. -/
def calculate_checksum (data : List Nat) : Option Nat :=
  if data.sum < 2 ^ 32 then some (data.sum % 256) else none

/-- port.to_bytes(2, big) (src line 85); OverflowError (none) when the
port does not fit in two bytes. -/
def port_to_bytes_be (p : Nat) : Option (List Nat) :=
  if p < 2 ^ 16 then some [p / 256, p % 256] else none

/-- create_discovery_packet (src lines 51-93), with the local IP supplied
as a parameter in place of the get_local_ip() socket call. Builds
header + length + command + identifier, extends with the hex-decoded hub
id, the parsed IP octets (bytearray.extend raises ValueError for a value
outside 0..255), the big-endian port, computes calculate_checksum (whose
result line 90 immediately overwrites but whose OverflowError would
propagate) and appends get_check_code of the packet so far. -/
def create_discovery_packet (hub_id local_ip : String) (listen_port : Nat) :
    Option (List Nat) :=
  match bytesFromHex hub_id with
  | none => none
  | some hb =>
    match ip_parts local_ip with
    | none => none
    | some parts =>
      if parts.all (fun x => decide (x < 256)) then
        match port_to_bytes_be listen_port with
        | none => none
        | some pb =>
          let packet :=
            [0xA5, 0x5A, 0x0C, 0xC3, 0xE0, 0xDF] ++ hb ++ parts ++ pb
          match calculate_checksum packet with
          | none => none
          | some _ => some (packet ++ [get_check_code packet])
      else none

/-- The encoding half of send_command (src lines 212-218): bytearray of
header + 0x02 0x3F + device + button, then the get_check_code byte
appended. Device and button are arbitrary Python ints; the bytearray
constructor raises ValueError (none) for a value outside 0..255. -/
def command_packet (device_id button_code : Int) : Option (List Nat) :=
  if 0 ≤ device_id ∧ device_id ≤ 255 ∧ 0 ≤ button_code ∧ button_code ≤ 255 then
    let base := [0xA5, 0x5A, 0x02, 0x3F, device_id.toNat, button_code.toNat]
    some (base ++ [get_check_code base])
  else none

/-- The session flags that gate send_command: self.authenticated and
whether self.client_sock is a live connection (src lines 17-19, 204-210). -/
structure ServerState where
  authenticated : Bool
  hasClient : Bool
deriving DecidableEq

/-- Observable outcome of one send_command call: the returned boolean,
every byte string written to the peer socket, and how many recv calls
were attempted. -/
structure SendOutcome where
  ok : Bool
  sent : List (List Nat)
  recvAttempts : Nat
deriving DecidableEq

/-- send_command (src lines 202-239): returns False before any socket use
when not authenticated or when no client connection exists; otherwise
builds the command packet inside the try block (a ValueError from an
out-of-range byte is caught and turns into a False return with nothing
sent), sends it, and attempts a single response recv. -/
def send_command (st : ServerState) (device_id button_code : Int) :
    SendOutcome :=
  if !st.authenticated then ⟨false, [], 0⟩
  else if !st.hasClient then ⟨false, [], 0⟩
  else
    match command_packet device_id button_code with
    | none => ⟨false, [], 0⟩
    | some pk => ⟨true, [pk], 1⟩

/-- The inbound-response acceptance test of handle_authentication
(src lines 179-193): data must be nonempty (the if data guard), of length
at least 5, and begin with the magic header 0xA5 0x5A. Nothing else about
the inbound bytes is examined. -/
def auth_accepts (data : List Nat) : Bool :=
  !data.isEmpty &&
    (decide (5 ≤ data.length) && decide (data.take 2 = [0xA5, 0x5A]))

/-- Helper: a hex digit value is at most 15. -/
theorem hexVal_le (c : Char) (v : Nat) (h : hexVal c = some v) : v ≤ 15 := by
  unfold hexVal at h
  split_ifs at h <;> simp_all <;> omega

/-- Helper: every byte produced by fromhexChars is at most 255. -/
theorem fromhexChars_bound (cs : List Char) :
    ∀ hb : List Nat, fromhexChars cs = some hb → ∀ x ∈ hb, x ≤ 255 := by
  induction cs using fromhexChars.induct with
  | case1 =>
    intro hb h x hx
    simp only [fromhexChars] at h
    obtain rfl : ([] : List Nat) = hb := Option.some.inj h
    simp at hx
  | case2 rest ih =>
    intro hb h x hx
    rw [fromhexChars.eq_def] at h
    simp only [if_pos rfl] at h
    exact ih hb h x hx
  | case3 c hc =>
    intro hb h x hx
    rw [fromhexChars.eq_def] at h
    simp [hc] at h
  | case4 c hc c2 rest2 hv lv tail htail hl2 hc1 ih =>
    intro hb h x hx
    rw [fromhexChars.eq_def] at h
    simp only [if_neg hc, hc1, hl2, htail] at h
    obtain rfl : (16 * hv + lv) :: tail = hb := Option.some.inj h
    rcases List.mem_cons.mp hx with rfl | hx2
    · have h1 := hexVal_le c hv hc1
      have h2 := hexVal_le c2 lv hl2
      omega
    · exact ih tail htail x hx2
  | case5 c hc c2 rest2 hnone ih =>
    intro hb h x hx
    rw [fromhexChars.eq_def] at h
    simp only [if_neg hc] at h
    revert h
    match h1 : hexVal c, h2 : hexVal c2, h3 : fromhexChars rest2 with
    | some a, some b, some t => intro h; exact (hnone a b t h1 h2 h3).elim
    | none, _, _ => intro h; exact absurd h (by simp)
    | some _, none, _ => intro h; exact absurd h (by simp)
    | some _, some _, none => intro h; exact absurd h (by simp)

/-- Helper: a list of bytes sums to at most 255 times its length. -/
theorem byte_sum_le (l : List Nat) (h : ∀ x ∈ l, x ≤ 255) :
    l.sum ≤ 255 * l.length := by
  induction l with
  | nil => simp
  | cons a t ih =>
    have ha := h a (List.mem_cons_self a t)
    have ht := ih (fun x hx => h x (List.mem_cons_of_mem a hx))
    simp only [List.sum_cons, List.length_cons]
    omega

/-- Helper: on byte sequences the masking in get_check_code is the
identity, so the result is the plain sum modulo 256. -/
theorem get_check_code_eq_sum (l : List Nat) (h : ∀ x ∈ l, x < 256) :
    get_check_code l = l.sum % 256 := by
  unfold get_check_code
  have h2 : l.map (fun b => b % 256) = l.map id :=
    List.map_congr_left (fun x hx => Nat.mod_eq_of_lt (h x hx))
  rw [h2, List.map_id]

/-- Helper: explicit value of create_discovery_packet on every input on
which all its fallible steps succeed. -/
theorem create_discovery_packet_eq (hub ip : String) (port : Nat)
    (hb parts : List Nat)
    (hhb : bytesFromHex hub = some hb) (hip : ip_parts ip = some parts)
    (hlt : ∀ x ∈ parts, x < 256) (hport : port < 2 ^ 16)
    (hsum : ([0xA5, 0x5A, 0x0C, 0xC3, 0xE0, 0xDF] ++ hb ++ parts ++
      [port / 256, port % 256]).sum < 2 ^ 32) :
    create_discovery_packet hub ip port =
      some (([0xA5, 0x5A, 0x0C, 0xC3, 0xE0, 0xDF] ++ hb ++ parts ++
        [port / 256, port % 256]) ++
        [get_check_code ([0xA5, 0x5A, 0x0C, 0xC3, 0xE0, 0xDF] ++ hb ++
          parts ++ [port / 256, port % 256])]) := by
  have hall : parts.all (fun x => decide (x < 256)) = true := by
    rw [List.all_eq_true]
    intro x hx
    exact decide_eq_true (hlt x hx)
  have hcc : calculate_checksum ([0xA5, 0x5A, 0x0C, 0xC3, 0xE0, 0xDF] ++ hb ++
      parts ++ [port / 256, port % 256]) =
      some (([0xA5, 0x5A, 0x0C, 0xC3, 0xE0, 0xDF] ++ hb ++ parts ++
        [port / 256, port % 256]).sum % 256) := by
    simp only [calculate_checksum]
    rw [if_pos hsum]
  unfold create_discovery_packet
  rw [hhb, hip]
  simp only [hall, if_true]
  simp only [port_to_bytes_be, if_pos hport]
  simp only [hcc]

/-- Helper: every frame returned by create_discovery_packet consists of a
body followed by the get_check_code byte of that body. -/
theorem create_discovery_packet_shape (hub ip : String) (port : Nat)
    (l : List Nat) (h : create_discovery_packet hub ip port = some l) :
    ∃ pk, l = pk ++ [get_check_code pk] := by
  unfold create_discovery_packet at h
  repeat any_goals (first | split at h | simp only [] at h)
  all_goals first
  | exact Option.noConfusion h
  | exact ⟨_, (Option.some.inj h).symm⟩

/-- Helper: when the byte sum of the packet reaches 2 to the 32, the
intermediate calculate_checksum call fails (Python OverflowError from
int.to_bytes with length 4), so create_discovery_packet returns no
frame. -/
theorem create_discovery_packet_overflow (hub ip : String) (port : Nat)
    (hb parts : List Nat)
    (hhb : bytesFromHex hub = some hb) (hip : ip_parts ip = some parts)
    (hlt : ∀ x ∈ parts, x < 256) (hport : port < 2 ^ 16)
    (hsum : ¬ (([0xA5, 0x5A, 0x0C, 0xC3, 0xE0, 0xDF] ++ hb ++ parts ++
      [port / 256, port % 256]).sum < 2 ^ 32)) :
    create_discovery_packet hub ip port = none := by
  have hall : parts.all (fun x => decide (x < 256)) = true := by
    rw [List.all_eq_true]
    intro x hx
    exact decide_eq_true (hlt x hx)
  have hcc : calculate_checksum ([0xA5, 0x5A, 0x0C, 0xC3, 0xE0, 0xDF] ++ hb ++
      parts ++ [port / 256, port % 256]) = none := by
    unfold calculate_checksum
    rw [if_neg hsum]
  unfold create_discovery_packet
  rw [hhb, hip]
  simp only [hall, if_true]
  simp only [port_to_bytes_be, if_pos hport]
  simp only [hcc]

/-- Helper: a string of 2n letters f hex-decodes to n bytes 0xFF. -/
theorem fromhexChars_replicate_ff (n : Nat) :
    fromhexChars (List.replicate (2 * n) 'f') = some (List.replicate n 255) := by
  induction n with
  | zero => rfl
  | succ k ih =>
    have h2 : 2 * (k + 1) = 2 * k + 1 + 1 := by omega
    rw [h2, List.replicate_succ, List.replicate_succ]
    rw [fromhexChars.eq_def]
    have hf : hexVal 'f' = some 15 := rfl
    simp only [if_neg (by decide : ¬('f' = ' ')), hf, ih]
    rw [List.replicate_succ]

/-- C1: for hub id 03862a23, local IP 192.168.40.85 and port 8002 the
discovery packet is exactly A5 5A 0C C3 E0 DF 03 86 2A 23 C0 A8 28 55 1F
42 A9, the port is encoded big-endian as 1F 42, and the final byte A9 is
the sum of the preceding 16 bytes modulo 256. -/
theorem discovery_packet_concrete_example :
    create_discovery_packet ("03862a23") ("192.168.40.85") 8002 =
      some [0xA5, 0x5A, 0x0C, 0xC3, 0xE0, 0xDF, 0x03, 0x86, 0x2A, 0x23,
            0xC0, 0xA8, 0x28, 0x55, 0x1F, 0x42, 0xA9] ∧
    (0xA9 : Nat) =
      ([0xA5, 0x5A, 0x0C, 0xC3, 0xE0, 0xDF, 0x03, 0x86, 0x2A, 0x23,
        0xC0, 0xA8, 0x28, 0x55, 0x1F, 0x42] : List Nat).sum % 256 := by
  decide

/-- C4: the inbound acceptance test of handle_authentication succeeds
exactly when the received data has length at least 5 and starts with the
magic header A5 5A; in particular it fails on empty input, and no further
content or checksum validation is applied. -/
theorem auth_accepts_iff :
    (∀ d : List Nat,
      auth_accepts d = true ↔ 5 ≤ d.length ∧ d.take 2 = [0xA5, 0x5A]) ∧
    auth_accepts [] = false := by
  refine ⟨fun d => ?_, by decide⟩
  simp only [auth_accepts, Bool.and_eq_true, decide_eq_true_eq,
    Bool.not_eq_true']
  constructor
  · rintro ⟨_, h5, ht⟩
    exact ⟨h5, ht⟩
  · rintro ⟨h5, ht⟩
    refine ⟨?_, h5, ht⟩
    cases d with
    | nil => simp at h5
    | cons a l => rfl

/-- C2: for device and button values in 0..255 the encoded command frame
is exactly 7 bytes A5 5A 02 3F device button followed by the
get_check_code of the first six bytes; in particular (2, B6) encodes to
A5 5A 02 3F 02 B6 F8 and (2, B9) to A5 5A 02 3F 02 B9 FB. -/
theorem command_packet_spec :
    (∀ d b : Int, 0 ≤ d → d ≤ 255 → 0 ≤ b → b ≤ 255 →
      ∃ l, command_packet d b = some l ∧ l.length = 7 ∧
        l.take 6 = [0xA5, 0x5A, 0x02, 0x3F, d.toNat, b.toNat] ∧
        l.getLast? = some (get_check_code (l.take 6))) ∧
    command_packet 2 0xB6 = some [0xA5, 0x5A, 0x02, 0x3F, 0x02, 0xB6, 0xF8] ∧
    command_packet 2 0xB9 = some [0xA5, 0x5A, 0x02, 0x3F, 0x02, 0xB9, 0xFB] := by
  refine ⟨?_, by decide, by decide⟩
  intro d b hd0 hd hb0 hb
  have htake :
      ([0xA5, 0x5A, 0x02, 0x3F, d.toNat, b.toNat] ++
        [get_check_code [0xA5, 0x5A, 0x02, 0x3F, d.toNat, b.toNat]]).take 6 =
      [0xA5, 0x5A, 0x02, 0x3F, d.toNat, b.toNat] := rfl
  refine ⟨[0xA5, 0x5A, 0x02, 0x3F, d.toNat, b.toNat] ++
      [get_check_code [0xA5, 0x5A, 0x02, 0x3F, d.toNat, b.toNat]],
      ?_, by simp, htake, ?_⟩
  · simp [command_packet, hd0, hd, hb0, hb]
  · rw [htake, List.getLast?_concat]

/-- C2 witness at device 2, button 182. -/
theorem command_packet_spec_witness :
    ∃ l, command_packet 2 182 = some l ∧ l.length = 7 ∧
      l.take 6 = [0xA5, 0x5A, 0x02, 0x3F, (2 : Int).toNat, (182 : Int).toNat] ∧
      l.getLast? = some (get_check_code (l.take 6)) :=
  command_packet_spec.1 2 182 (by decide) (by decide) (by decide) (by decide)

/-- C3: on byte sequences (all elements below 256) get_check_code is the
byte sum modulo 256, and it is invariant under any permutation of its
input, hence under any accumulation order. -/
theorem get_check_code_sum_mod :
    (∀ data : List Nat, (∀ x ∈ data, x < 256) →
      get_check_code data = data.sum % 256) ∧
    ∀ l1 l2 : List Nat, l1.Perm l2 → get_check_code l1 = get_check_code l2 := by
  refine ⟨get_check_code_eq_sum, ?_⟩
  intro l1 l2 hp
  unfold get_check_code
  rw [(hp.map _).sum_eq]

/-- C3 witness at the byte sequence 10, 250. -/
theorem get_check_code_sum_mod_witness :
    get_check_code [10, 250] = ([10, 250] : List Nat).sum % 256 :=
  get_check_code_sum_mod.1 [10, 250] (by decide)

/-- C5: when the session is not authenticated or has no peer connection,
send_command returns failure and performs no network traffic: nothing is
written and no read is attempted. -/
theorem send_command_unauthenticated_no_io :
    ∀ (st : ServerState) (d b : Int),
      st.authenticated = false ∨ st.hasClient = false →
      send_command st d b = ⟨false, [], 0⟩ := by
  intro st d b h
  rcases h with h | h
  · simp [send_command, h]
  · cases hA : st.authenticated <;> simp [send_command, h, hA]

/-- C5 witness: an unauthenticated session with a live socket. -/
theorem send_command_unauthenticated_no_io_witness :
    send_command ⟨false, true⟩ 2 182 = ⟨false, [], 0⟩ :=
  send_command_unauthenticated_no_io ⟨false, true⟩ 2 182 (Or.inl rfl)

/-- C6: for a device or button value outside 0..255, send_command fails
and transmits nothing; no truncated or wrapped frame is ever produced. -/
theorem send_command_out_of_range_no_frame :
    ∀ (st : ServerState) (d b : Int),
      d < 0 ∨ 255 < d ∨ b < 0 ∨ 255 < b →
      (send_command st d b).sent = [] ∧ (send_command st d b).ok = false := by
  intro st d b h
  have hcp : command_packet d b = none := by
    unfold command_packet
    rw [if_neg]
    rintro ⟨h1, h2, h3, h4⟩
    rcases h with h | h | h | h <;> omega
  cases hA : st.authenticated <;> cases hC : st.hasClient <;>
    simp [send_command, hA, hC, hcp]

/-- C6 witness: device value 300 on an authenticated connected session. -/
theorem send_command_out_of_range_no_frame_witness :
    (send_command ⟨true, true⟩ 300 0).sent = [] ∧
    (send_command ⟨true, true⟩ 300 0).ok = false :=
  send_command_out_of_range_no_frame ⟨true, true⟩ 300 0
    (Or.inr (Or.inl (by decide)))

/-- C7 counterexample: ports 8002 and 8003 give frames that agree at
bytes 13 and 14 (0-indexed) but differ at byte 15, so the port field does
not occupy bytes 13-14 and a byte other than 13, 14 and the final
checksum byte changes. -/
theorem discovery_port_bytes_counterexample :
    ∃ l1 l2,
      create_discovery_packet ("03862a23") ("192.168.40.85") 8002 = some l1 ∧
      create_discovery_packet ("03862a23") ("192.168.40.85") 8003 = some l2 ∧
      l1.length = 17 ∧ l2.length = 17 ∧
      l1[13]? = l2[13]? ∧ l1[14]? = l2[14]? ∧ l1[15]? ≠ l2[15]? :=
  ⟨[0xA5, 0x5A, 0x0C, 0xC3, 0xE0, 0xDF, 0x03, 0x86, 0x2A, 0x23,
    0xC0, 0xA8, 0x28, 0x55, 0x1F, 0x42, 0xA9],
   [0xA5, 0x5A, 0x0C, 0xC3, 0xE0, 0xDF, 0x03, 0x86, 0x2A, 0x23,
    0xC0, 0xA8, 0x28, 0x55, 0x1F, 0x43, 0xAA],
   by decide, by decide, by decide, by decide, by decide, by decide, by decide⟩

/-- C7 amended: for a fixed hub identifier decoding to 4 bytes and a
fixed valid dotted-quad IP, every discovery frame has exactly 17 bytes,
two frames for different ports agree on bytes 0-13, and the big-endian
port field sits at bytes 14-15 (0-indexed), so only bytes 14, 15 and the
final checksum byte 16 can differ. -/
theorem discovery_port_effect (hub ip : String) (p1 p2 : Nat)
    (hb parts : List Nat)
    (hhb : bytesFromHex hub = some hb) (h4 : hb.length = 4)
    (hip : ip_parts ip = some parts) (hp4 : parts.length = 4)
    (hlt : ∀ x ∈ parts, x < 256)
    (hp1 : p1 < 2 ^ 16) (hp2 : p2 < 2 ^ 16) :
    ∃ l1 l2,
      create_discovery_packet hub ip p1 = some l1 ∧
      create_discovery_packet hub ip p2 = some l2 ∧
      l1.length = 17 ∧ l2.length = 17 ∧
      l1.take 14 = l2.take 14 ∧
      l1[14]? = some (p1 / 256) ∧ l1[15]? = some (p1 % 256) := by
  rcases hb with _ | ⟨a, _ | ⟨b, _ | ⟨c, _ | ⟨d, _ | ⟨e, t⟩⟩⟩⟩⟩ <;> simp at h4
  rcases parts with _ | ⟨w, _ | ⟨x, _ | ⟨y, _ | ⟨z, _ | ⟨u, s⟩⟩⟩⟩⟩ <;> simp at hp4
  have hbb : ∀ v ∈ [a, b, c, d], v ≤ 255 := fromhexChars_bound hub.data _ hhb
  have ha := hbb a (by simp)
  have hb2 := hbb b (by simp)
  have hc := hbb c (by simp)
  have hd := hbb d (by simp)
  have hw := hlt w (by simp)
  have hx := hlt x (by simp)
  have hy := hlt y (by simp)
  have hz := hlt z (by simp)
  have hs1 : ([0xA5, 0x5A, 0x0C, 0xC3, 0xE0, 0xDF] ++ [a, b, c, d] ++
      [w, x, y, z] ++ [p1 / 256, p1 % 256]).sum < 2 ^ 32 := by
    simp [List.sum_append]
    omega
  have hs2 : ([0xA5, 0x5A, 0x0C, 0xC3, 0xE0, 0xDF] ++ [a, b, c, d] ++
      [w, x, y, z] ++ [p2 / 256, p2 % 256]).sum < 2 ^ 32 := by
    simp [List.sum_append]
    omega
  refine ⟨_, _,
    create_discovery_packet_eq hub ip p1 [a, b, c, d] [w, x, y, z]
      hhb hip hlt hp1 hs1,
    create_discovery_packet_eq hub ip p2 [a, b, c, d] [w, x, y, z]
      hhb hip hlt hp2 hs2, rfl, rfl, rfl, rfl, rfl⟩

/-- C7 witness at the default hub id and IP with ports 8002 and 9000. -/
theorem discovery_port_effect_witness :
    ∃ l1 l2,
      create_discovery_packet ("03862a23") ("192.168.40.85") 8002 = some l1 ∧
      create_discovery_packet ("03862a23") ("192.168.40.85") 9000 = some l2 ∧
      l1.length = 17 ∧ l2.length = 17 ∧ l1.take 14 = l2.take 14 ∧
      l1[14]? = some (8002 / 256) ∧ l1[15]? = some (8002 % 256) :=
  discovery_port_effect ("03862a23") ("192.168.40.85") 8002 9000
    [0x03, 0x86, 0x2A, 0x23] [192, 168, 40, 85] (by decide) (by decide)
    (by decide) (by decide) (by decide) (by decide) (by decide)

/-- C8 counterexample: in the concrete discovery frame the length byte is
0x0C = 12, but the segment from the command byte (index 3) through the
end of the IP and port payload, exclusive of the checksum, holds 13
bytes, so the length byte does not equal that count. -/
theorem discovery_length_byte_counterexample :
    ∃ l, create_discovery_packet ("03862a23") ("192.168.40.85") 8002 = some l ∧
      l[2]? = some 0x0C ∧ ((l.drop 3).dropLast).length = 13 ∧
      (0x0C : Nat) ≠ 13 :=
  ⟨[0xA5, 0x5A, 0x0C, 0xC3, 0xE0, 0xDF, 0x03, 0x86, 0x2A, 0x23,
    0xC0, 0xA8, 0x28, 0x55, 0x1F, 0x42, 0xA9],
   by decide, by decide, by decide, by decide⟩

/-- C8 amended: the length byte (third byte) is 0x0C and equals the count
of bytes strictly after the command byte through the end of the IP and
port payload (identifier, hub id, IP, port: 2 + 4 + 4 + 2 = 12),
exclusive of the checksum. -/
theorem discovery_length_byte_amended (hub ip : String) (port : Nat)
    (hb parts : List Nat)
    (hhb : bytesFromHex hub = some hb) (h4 : hb.length = 4)
    (hip : ip_parts ip = some parts) (hp4 : parts.length = 4)
    (hlt : ∀ x ∈ parts, x < 256) (hport : port < 2 ^ 16) :
    ∃ l, create_discovery_packet hub ip port = some l ∧
      l[2]? = some 0x0C ∧ ((l.drop 4).dropLast).length = 0x0C := by
  rcases hb with _ | ⟨a, _ | ⟨b, _ | ⟨c, _ | ⟨d, _ | ⟨e, t⟩⟩⟩⟩⟩ <;> simp at h4
  rcases parts with _ | ⟨w, _ | ⟨x, _ | ⟨y, _ | ⟨z, _ | ⟨u, s⟩⟩⟩⟩⟩ <;> simp at hp4
  have hbb : ∀ v ∈ [a, b, c, d], v ≤ 255 := fromhexChars_bound hub.data _ hhb
  have ha := hbb a (by simp)
  have hb2 := hbb b (by simp)
  have hc := hbb c (by simp)
  have hd := hbb d (by simp)
  have hw := hlt w (by simp)
  have hx := hlt x (by simp)
  have hy := hlt y (by simp)
  have hz := hlt z (by simp)
  have hsum : ([0xA5, 0x5A, 0x0C, 0xC3, 0xE0, 0xDF] ++ [a, b, c, d] ++
      [w, x, y, z] ++ [port / 256, port % 256]).sum < 2 ^ 32 := by
    simp [List.sum_append]
    omega
  exact ⟨_, create_discovery_packet_eq hub ip port [a, b, c, d] [w, x, y, z]
    hhb hip hlt hport hsum, rfl, rfl⟩

/-- C8 witness at the default hub id, IP and port. -/
theorem discovery_length_byte_amended_witness :
    ∃ l, create_discovery_packet ("03862a23") ("192.168.40.85") 8002 = some l ∧
      l[2]? = some 0x0C ∧ ((l.drop 4).dropLast).length = 0x0C :=
  discovery_length_byte_amended ("03862a23") ("192.168.40.85") 8002
    [0x03, 0x86, 0x2A, 0x23] [192, 168, 40, 85] (by decide) (by decide)
    (by decide) (by decide) (by decide) (by decide)

/-- C9: on byte sequences whose sum is below 2 to the 32 the two checksum
implementations agree, and the byte appended to every successful
discovery frame is always the get_check_code value of the frame body. -/
theorem checksum_impls_agree :
    (∀ data : List Nat, (∀ x ∈ data, x < 256) → data.sum < 2 ^ 32 →
      calculate_checksum data = some (get_check_code data)) ∧
    ∀ (hub ip : String) (port : Nat) (l : List Nat),
      create_discovery_packet hub ip port = some l →
      l.getLast? = some (get_check_code l.dropLast) := by
  constructor
  · intro data hbytes hsum
    rw [get_check_code_eq_sum data hbytes]
    simp only [calculate_checksum]
    rw [if_pos hsum]
  · intro hub ip port l h
    obtain ⟨pk, rfl⟩ := create_discovery_packet_shape hub ip port l h
    rw [List.getLast?_concat, List.dropLast_concat]

/-- C9 witness: the bytes 10, 250 and the default discovery frame. -/
theorem checksum_impls_agree_witness :
    calculate_checksum [10, 250] = some (get_check_code [10, 250]) ∧
    ([0xA5, 0x5A, 0x0C, 0xC3, 0xE0, 0xDF, 0x03, 0x86, 0x2A, 0x23, 0xC0,
      0xA8, 0x28, 0x55, 0x1F, 0x42, 0xA9] : List Nat).getLast? =
      some (get_check_code
        (([0xA5, 0x5A, 0x0C, 0xC3, 0xE0, 0xDF, 0x03, 0x86, 0x2A, 0x23, 0xC0,
          0xA8, 0x28, 0x55, 0x1F, 0x42, 0xA9] : List Nat).dropLast)) :=
  ⟨checksum_impls_agree.1 [10, 250] (by decide) (by decide),
   checksum_impls_agree.2 ("03862a23") ("192.168.40.85") 8002 _ (by decide)⟩

/-- C10 counterexample: a hub id of 34000000 letters f decodes to
17000000 bytes, yet create_discovery_packet returns no frame at all
(the intermediate calculate_checksum call overflows its 4-byte
conversion), instead of a frame of 13 + 17000000 bytes. -/
theorem discovery_hub_overflow_counterexample :
    ∃ hb, bytesFromHex (String.mk (List.replicate 34000000 'f')) = some hb ∧
      hb.length = 17000000 ∧
      create_discovery_packet (String.mk (List.replicate 34000000 'f'))
        ("192.168.40.85") 8002 = none := by
  have hfh : bytesFromHex (String.mk (List.replicate 34000000 'f')) =
      some (List.replicate 17000000 255) := by
    show fromhexChars (List.replicate 34000000 'f') = _
    have h := fromhexChars_replicate_ff 17000000
    rwa [show 2 * 17000000 = 34000000 by norm_num] at h
  have hlenr : (List.replicate 17000000 (255 : Nat)).length = 17000000 := by
    rw [List.length_replicate]
  have e1 : ([0xA5, 0x5A, 0x0C, 0xC3, 0xE0, 0xDF] : List Nat).sum = 909 := by
    decide
  have e2 : (List.replicate 17000000 (255 : Nat)).sum = 4335000000 := by
    rw [List.sum_replicate, smul_eq_mul]
  have e3 : ([192, 168, 40, 85] : List Nat).sum = 485 := by decide
  have e4 : ([8002 / 256, 8002 % 256] : List Nat).sum = 97 := by decide
  have hbig : ¬ (([0xA5, 0x5A, 0x0C, 0xC3, 0xE0, 0xDF] ++
      List.replicate 17000000 (255 : Nat) ++ [192, 168, 40, 85] ++
      [8002 / 256, 8002 % 256]).sum < 2 ^ 32) := by
    rw [List.sum_append, List.sum_append, List.sum_append, e1, e2, e3, e4]
    norm_num
  exact ⟨List.replicate 17000000 255, hfh, hlenr,
    create_discovery_packet_overflow (String.mk (List.replicate 34000000 'f'))
      ("192.168.40.85") 8002 (List.replicate 17000000 255) [192, 168, 40, 85]
      hfh (by decide) (by decide) (by norm_num) hbig⟩

/-- C10 amended: for every hub id hex string decoding to n bytes with n
at most 16000000 (so that the intermediate calculate_checksum call does
not overflow), the discovery frame has 13 + n bytes, the frame has 17
bytes exactly when n = 4, and the length byte stays 0x0C whatever n is:
the hub id length is never validated. -/
theorem discovery_length_varies (hub ip : String) (port : Nat)
    (hb parts : List Nat)
    (hhb : bytesFromHex hub = some hb) (hn : hb.length ≤ 16000000)
    (hip : ip_parts ip = some parts) (hp4 : parts.length = 4)
    (hlt : ∀ x ∈ parts, x < 256) (hport : port < 2 ^ 16) :
    ∃ l, create_discovery_packet hub ip port = some l ∧
      l.length = 13 + hb.length ∧ (l.length = 17 ↔ hb.length = 4) ∧
      l[2]? = some 0x0C := by
  have hbb := fromhexChars_bound hub.data hb hhb
  have hsb := byte_sum_le hb hbb
  have hps := byte_sum_le parts (fun x hx => by have := hlt x hx; omega)
  rw [hp4] at hps
  have hsum : ([0xA5, 0x5A, 0x0C, 0xC3, 0xE0, 0xDF] ++ hb ++ parts ++
      [port / 256, port % 256]).sum < 2 ^ 32 := by
    simp [List.sum_append]
    omega
  refine ⟨_, create_discovery_packet_eq hub ip port hb parts
    hhb hip hlt hport hsum, ?_⟩
  have hlen : (([0xA5, 0x5A, 0x0C, 0xC3, 0xE0, 0xDF] ++ hb ++ parts ++
      [port / 256, port % 256]) ++
      [get_check_code ([0xA5, 0x5A, 0x0C, 0xC3, 0xE0, 0xDF] ++ hb ++
        parts ++ [port / 256, port % 256])]).length = 13 + hb.length := by
    simp [List.length_append, hp4]
    omega
  refine ⟨hlen, ?_, ?_⟩
  · rw [hlen]
    omega
  · rfl

/-- C10 witness at the default hub id, which decodes to 4 bytes. -/
theorem discovery_length_varies_witness :
    ∃ l, create_discovery_packet ("03862a23") ("192.168.40.85") 8002 = some l ∧
      l.length = 13 + ([0x03, 0x86, 0x2A, 0x23] : List Nat).length ∧
      (l.length = 17 ↔ ([0x03, 0x86, 0x2A, 0x23] : List Nat).length = 4) ∧
      l[2]? = some 0x0C :=
  discovery_length_varies ("03862a23") ("192.168.40.85") 8002
    [0x03, 0x86, 0x2A, 0x23] [192, 168, 40, 85] (by decide) (by decide)
    (by decide) (by decide) (by decide) (by decide)
